import Mathlib

/-!
Shallow embedding of the session-scoped task-tracking service in
`src/app/main.py` (FastAPI application `Task Management API`).

Modelling conventions:
* Python strings are modelled as `List Char` (`Str` below); Python's
  `str.strip` is `pyStrip`, `str.lower` is `pyLower`, and the membership
  test `q in s` on strings is `strContains`.
* Timestamps (`datetime.utcnow().isoformat()`) are modelled as abstract
  time values of type `Nat`; the ISO rendering of `utcnow` is an
  order-embedding, so equality and order of timestamps are preserved.
  The current time is passed to each operation as an explicit parameter.
* The repository's `Dict[str, List[Dict]]` (`InMemoryTaskRepository._storage`)
  is an association list `Storage` with `lookupKey`/`setKey` access; stored
  task dicts are `Task` records (every create writes the full field set, so
  the dict always has exactly these keys).  The stored `status` value is the
  status string, mirroring `TaskStatus.<X>.value` used at creation; the
  `str`-valued enum compares equal to its string, so updates that store an
  enum member are observationally the same.
* Inputs reaching `TaskService` carry values already validated by the
  pydantic boundary models (`TaskCreate` / `TaskUpdate`), as in the source,
  where FastAPI validates before the endpoint body runs.  `validateTitle`
  models the pydantic title pipeline: the `Field(min_length=3,
  max_length=200)` constraint checked on the raw value, then the
  `title_not_empty` validator which rejects blank titles and strips.
* `uuid.uuid4()` is modelled by passing the freshly generated id as an
  explicit parameter.
-/

namespace TaskApi

/-- Python strings, as lists of characters. -/
abbrev Str := List Char

/-- Python `str.lower`, per character. -/
def pyLower (s : Str) : Str := s.map Char.toLower

/-- Left part of Python `str.strip`: drop leading whitespace. -/
def stripLeft (s : Str) : Str := s.dropWhile Char.isWhitespace

/-- Python `str.strip`: drop leading and trailing whitespace. -/
def pyStrip (s : Str) : Str := (stripLeft (stripLeft s).reverse).reverse

/-- Does `s` start with `q`?  Used to model Python's `in` on strings. -/
def beginsWith : Str → Str → Bool
  | [], _ => true
  | _ :: _, [] => false
  | c :: q, d :: s => c == d && beginsWith q s

/-- Python `q in s` on strings: `q` occurs contiguously in `s`. -/
def strContains (q : Str) : Str → Bool
  | [] => q.isEmpty
  | d :: s => beginsWith q (d :: s) || strContains q s

/-- The four-member status enumeration (`TaskStatus` in `main.py`). -/
inductive TaskStatus where
  | PENDING
  | IN_PROGRESS
  | COMPLETED
  | CANCELLED
deriving DecidableEq

/-- The string value of a status member (`TaskStatus.<X>.value`). -/
def TaskStatus.value : TaskStatus → Str
  | .PENDING => ['P', 'E', 'N', 'D', 'I', 'N', 'G']
  | .IN_PROGRESS => ['I', 'N', '_', 'P', 'R', 'O', 'G', 'R', 'E', 'S', 'S']
  | .COMPLETED => ['C', 'O', 'M', 'P', 'L', 'E', 'T', 'E', 'D']
  | .CANCELLED => ['C', 'A', 'N', 'C', 'E', 'L', 'L', 'E', 'D']

/-- A stored task record (the dict built by `TaskService.create_task`,
which the `Task` pydantic model mirrors field for field). -/
structure Task where
  id : Str
  title : Str
  description : Option Str
  priority : Nat
  status : Str
  tags : List Str
  due_date : Option Str
  created_at : Nat
  updated_at : Nat
deriving DecidableEq

/-- A validated creation draft (`TaskCreate` after pydantic validation),
with the model's defaults: priority 2, tags `[]`, description and
due_date absent. -/
structure TaskCreate where
  title : Str
  description : Option Str := none
  priority : Nat := 2
  tags : List Str := []
  due_date : Option Str := none
deriving DecidableEq

/-- A validated change set (`TaskUpdate.model_dump(exclude_unset=True)`).
`none` in an outer `Option` means the field was absent from the request;
for `description` and `due_date` — the two fields that are nullable in the
stored `Task` record — an explicitly supplied `null` is the inner `none`,
so "unset" and "set to null" are distinct values here, as in the source.
The model has no `id` or `created_at` field, exactly like `TaskUpdate`
in `main.py`, so neither can ever appear in a change set. -/
structure TaskUpdate where
  title : Option Str := none
  description : Option (Option Str) := none
  status : Option TaskStatus := none
  priority : Option Nat := none
  tags : Option (List Str) := none
  due_date : Option (Option Str) := none
deriving DecidableEq

/-- Is the dumped change set empty (`not update_dict` in `update_task`)? -/
def TaskUpdate.isEmptyUpdate (u : TaskUpdate) : Bool :=
  u.title.isNone && u.description.isNone && u.status.isNone &&
    u.priority.isNone && u.tags.isNone && u.due_date.isNone

/-- The pydantic title pipeline shared by `TaskBase` and `TaskUpdate` for a
present title: the `Field(min_length=3, max_length=200)` bound on the raw
value, then the validator rejecting blank titles and returning
`v.strip()`.  Returns the stored title on success. -/
def validateTitle (v : Str) : Option Str :=
  if 3 ≤ v.length ∧ v.length ≤ 200 then
    if pyStrip v = [] then none else some (pyStrip v)
  else none

/-- The in-memory store: `InMemoryTaskRepository._storage`, a mapping from
session id to the session's task list, as an association list. -/
abbrev Storage := List (Str × List Task)

/-- Dict lookup `self._storage.get(session_id, ...)` (first binding wins;
a Python dict has at most one binding per key). -/
def lookupKey : Storage → Str → Option (List Task)
  | [], _ => none
  | (k, v) :: rest, sid => if k = sid then some v else lookupKey rest sid

/-- Dict write `self._storage[session_id] = ts`. -/
def setKey : Storage → Str → List Task → Storage
  | [], sid, ts => [(sid, ts)]
  | (k, v) :: rest, sid, ts =>
      if k = sid then (sid, ts) :: rest else (k, v) :: setKey rest sid ts

/-- `InMemoryTaskRepository.find_all`: the session's partition, `[]` if the
session is unseen. -/
def find_all (st : Storage) (sid : Str) : List Task :=
  (lookupKey st sid).getD []

/-- `next((t for t in tasks if t["id"] == task_id), None)`: the first task
with the given id. -/
def firstTask (tid : Str) : List Task → Option Task
  | [] => none
  | t :: ts => if t.id = tid then some t else firstTask tid ts

/-- `InMemoryTaskRepository.find_by_id`. -/
def find_by_id (st : Storage) (sid tid : Str) : Option Task :=
  firstTask tid (find_all st sid)

/-- `InMemoryTaskRepository.create`: append the task to the session's
partition, creating the partition when absent; returns the stored task. -/
def repo_create (st : Storage) (sid : Str) (t : Task) : Storage × Task :=
  (setKey st sid (find_all st sid ++ [t]), t)

/-- `task.update(updates)` followed by `task["updated_at"] = now` on a
stored record: fields present in the change set are overwritten, all other
fields keep their value, and `updated_at` is stamped last. -/
def applyChanges (t : Task) (u : TaskUpdate) (now : Nat) : Task :=
  { id := t.id
    title := u.title.getD t.title
    description := u.description.getD t.description
    status := match u.status with
      | none => t.status
      | some s => s.value
    priority := u.priority.getD t.priority
    tags := u.tags.getD t.tags
    due_date := u.due_date.getD t.due_date
    created_at := t.created_at
    updated_at := now }

/-- In-place mutation of the first task with the given id inside the
partition list (the found dict is aliased by the list in the source). -/
def updateFirst (tid : Str) (u : TaskUpdate) (now : Nat) : List Task → List Task
  | [] => []
  | t :: ts =>
      if t.id = tid then applyChanges t u now :: ts
      else t :: updateFirst tid u now ts

/-- `InMemoryTaskRepository.update`: find the task, apply the change set and
stamp `updated_at`; `none` and an untouched store when the id is absent. -/
def repo_update (st : Storage) (sid tid : Str) (u : TaskUpdate) (now : Nat) :
    Storage × Option Task :=
  match find_by_id st sid tid with
  | none => (st, none)
  | some t =>
      (setKey st sid (updateFirst tid u now (find_all st sid)),
        some (applyChanges t u now))

/-- `tasks.remove(task)` for the first task with the given id (value
equality agrees with the id-based find here, since any earlier value-equal
dict would share the id and be found first). -/
def removeFirst (tid : Str) : List Task → List Task
  | [] => []
  | t :: ts => if t.id = tid then ts else t :: removeFirst tid ts

/-- `InMemoryTaskRepository.delete`. -/
def repo_delete (st : Storage) (sid tid : Str) : Storage × Bool :=
  match find_by_id st sid tid with
  | none => (st, false)
  | some _ => (setKey st sid (removeFirst tid (find_all st sid)), true)

/-- Typed failures raised by the service / endpoint layer
(`HTTPException(400)` and `HTTPException(404)`). -/
inductive ApiError where
  | badRequest
  | notFound
deriving DecidableEq

/-- The status filter of `TaskService.get_all_tasks`: `if status:` keeps
the whole list for `None` and for the empty (falsy) string, otherwise
retains tasks whose stored status equals the filter string exactly. -/
def filterByStatus (ts : List Task) (status : Option Str) : List Task :=
  match status with
  | none => ts
  | some s => if s = [] then ts else ts.filter (fun t => t.status = s)

/-- `TaskService.get_all_tasks`. -/
def get_all_tasks (st : Storage) (sid : Str) (status : Option Str) : List Task :=
  filterByStatus (find_all st sid) status

/-- `TaskService.get_task_by_id`: 404 when the lookup misses. -/
def get_task_by_id (st : Storage) (sid tid : Str) : Except ApiError Task :=
  match find_by_id st sid tid with
  | none => .error .notFound
  | some t => .ok t

/-- `TaskService.create_task`: build the task dict from the validated draft
with a fresh id, status `PENDING` and `created_at = updated_at = now`, then
insert it via the repository. -/
def create_task (st : Storage) (sid : Str) (d : TaskCreate) (newId : Str)
    (now : Nat) : Storage × Task :=
  repo_create st sid
    { id := newId
      title := d.title
      description := d.description
      priority := d.priority
      status := TaskStatus.PENDING.value
      tags := d.tags
      due_date := d.due_date
      created_at := now
      updated_at := now }

/-- `TaskService.update_task`: reject an empty change set with 400 before
any repository call, report 404 when the repository finds nothing, and
otherwise return the updated stored task. -/
def update_task (st : Storage) (sid tid : Str) (u : TaskUpdate) (now : Nat) :
    Storage × Except ApiError Task :=
  if u.isEmptyUpdate then (st, .error .badRequest)
  else
    match repo_update st sid tid u now with
    | (st', some t) => (st', .ok t)
    | (_, none) => (st, .error .notFound)

/-- `TaskService.delete_task`: 404 when the repository removed nothing. -/
def delete_task (st : Storage) (sid tid : Str) : Storage × Except ApiError Unit :=
  match repo_delete st sid tid with
  | (st', true) => (st', .ok ())
  | (_, false) => (st, .error .notFound)

/-- The five-bucket tally of `TaskService.get_statistics` over a partition
snapshot (`TaskStats` in `main.py`). -/
structure TaskStats where
  total : Nat
  pending : Nat
  in_progress : Nat
  completed : Nat
  cancelled : Nat
deriving DecidableEq

/-- The pure tally: length of the snapshot plus one exact-match count per
status value. -/
def statsOf (ts : List Task) : TaskStats :=
  { total := ts.length
    pending := ts.countP (fun t => t.status = TaskStatus.PENDING.value)
    in_progress := ts.countP (fun t => t.status = TaskStatus.IN_PROGRESS.value)
    completed := ts.countP (fun t => t.status = TaskStatus.COMPLETED.value)
    cancelled := ts.countP (fun t => t.status = TaskStatus.CANCELLED.value) }

/-- `TaskService.get_statistics`. -/
def get_statistics (st : Storage) (sid : Str) : TaskStats :=
  statsOf (find_all st sid)

/-- The search predicate of `TaskService.search_tasks`: case-folded
containment in the title, or, when the description is present and truthy
(non-empty), case-folded containment in the description. -/
def matchesQuery (q : Str) (t : Task) : Bool :=
  strContains (pyLower q) (pyLower t.title) ||
    match t.description with
    | none => false
    | some d => !d.isEmpty && strContains (pyLower q) (pyLower d)

/-- The pure search filter over a partition snapshot. -/
def searchFilter (ts : List Task) (q : Str) : List Task :=
  ts.filter (matchesQuery q)

/-- `TaskService.search_tasks`. -/
def search_tasks (st : Storage) (sid : Str) (q : Str) : List Task :=
  searchFilter (find_all st sid) q

/-- The `/tasks/search` endpoint: queries shorter than 2 characters are
rejected with 400 before the service runs. -/
def search_endpoint (st : Storage) (sid : Str) (q : Str) :
    Except ApiError (List Task) :=
  if q.length < 2 then .error .badRequest else .ok (search_tasks st sid q)

/-- Specification-side notion of containment, written from the spec's
words: the needle occurs contiguously inside the haystack. -/
def OccursIn (q s : Str) : Prop := ∃ a b, s = a ++ q ++ b

/-- Specification-side reading of the search predicate, written from the
spec's words for comparison with the source-derived `matchesQuery`: the
lower-cased query occurs in the lower-cased title, or the task has a
description and the lower-cased query occurs in its lower-cased form.  A
task with no description can only match on its title. -/
def SpecSearchMatch (q : Str) (t : Task) : Prop :=
  OccursIn (pyLower q) (pyLower t.title) ∨
    ∃ d, t.description = some d ∧ OccursIn (pyLower q) (pyLower d)

/-- The bulk-delete endpoint `delete_all_tasks`: reset the partition to the
empty list when the session key is present, otherwise leave the store
untouched. -/
def clear_tasks (st : Storage) (sid : Str) : Storage :=
  match lookupKey st sid with
  | none => st
  | some _ => setKey st sid []

/-- Sample stored task used by closed witnesses and counterexamples. -/
def sampleTask : Task :=
  { id := ['i', 'd']
    title := ['F', 'i', 'x', ' ', 'B', 'u', 'g']
    description := some ['b', 'u', 'g']
    priority := 2
    status := TaskStatus.PENDING.value
    tags := []
    due_date := none
    created_at := 0
    updated_at := 0 }

/-- Sample one-session store used by closed witnesses and counterexamples. -/
def sampleStore : Storage := [(['s'], [sampleTask])]

/-! ### Storage lemmas -/

theorem lookupKey_setKey_self (st : Storage) (k : Str) (v : List Task) :
    lookupKey (setKey st k v) k = some v := by
  induction st with
  | nil => simp [setKey, lookupKey]
  | cons kv rest ih =>
      obtain ⟨k', v'⟩ := kv
      by_cases h : k' = k
      · simp [setKey, lookupKey, h]
      · simp [setKey, lookupKey, h, ih]

theorem lookupKey_setKey_ne (st : Storage) (k k' : Str) (v : List Task)
    (h : k ≠ k') : lookupKey (setKey st k v) k' = lookupKey st k' := by
  induction st with
  | nil => simp [setKey, lookupKey, h]
  | cons kv rest ih =>
      obtain ⟨k'', v''⟩ := kv
      by_cases h2 : k'' = k
      · subst h2
        simp [setKey, lookupKey, h]
      · by_cases h3 : k'' = k'
        · simp [setKey, lookupKey, h2, h3, Ne.symm h]
        · simp [setKey, lookupKey, h2, h3, ih]

theorem find_all_setKey_self (st : Storage) (k : Str) (v : List Task) :
    find_all (setKey st k v) k = v := by
  simp [find_all, lookupKey_setKey_self]

theorem find_all_setKey_ne (st : Storage) (k k' : Str) (v : List Task)
    (h : k ≠ k') : find_all (setKey st k v) k' = find_all st k' := by
  simp [find_all, lookupKey_setKey_ne st k k' v h]

/-! ### Claim theorems -/

/-- C2: for every session and validated draft, `create_task` returns a task
whose status is `PENDING`, whose id is the freshly generated identifier,
whose `created_at` equals `updated_at` (both the current time), whose other
fields equal the draft's fields (with the draft defaults `tags = []`,
`description`/`due_date` absent, `priority = 2` built into `TaskCreate`),
and the returned task is exactly the record appended to the session's
partition of the store. -/
theorem C2_create_postcondition (st : Storage) (sid : Str) (d : TaskCreate)
    (newId : Str) (now : Nat) :
    (create_task st sid d newId now).2.status = TaskStatus.PENDING.value ∧
    (create_task st sid d newId now).2.id = newId ∧
    (create_task st sid d newId now).2.created_at = now ∧
    (create_task st sid d newId now).2.updated_at = now ∧
    (create_task st sid d newId now).2.title = d.title ∧
    (create_task st sid d newId now).2.description = d.description ∧
    (create_task st sid d newId now).2.priority = d.priority ∧
    (create_task st sid d newId now).2.tags = d.tags ∧
    (create_task st sid d newId now).2.due_date = d.due_date ∧
    find_all (create_task st sid d newId now).1 sid
      = find_all st sid ++ [(create_task st sid d newId now).2] := by
  refine ⟨rfl, rfl, rfl, rfl, rfl, rfl, rfl, rfl, rfl, ?_⟩
  simp [create_task, repo_create, find_all_setKey_self]

/-- C1: session isolation.  For distinct sessions `sid1 ≠ sid2`, a create
performed under `sid1` changes none of the read operations (list, get,
search, statistics) under `sid2`, and update, delete and bulk-clear under
`sid1` leave `sid2`'s partition untouched; each read operation is a pure
function of the session's own partition by definition. -/
theorem C1_session_isolation (st : Storage) (sid1 sid2 : Str)
    (h : sid1 ≠ sid2) (d : TaskCreate) (newId : Str) (now : Nat)
    (u : TaskUpdate) (tid tid' : Str) (fstat : Option Str) (q : Str) :
    get_all_tasks (create_task st sid1 d newId now).1 sid2 fstat
        = get_all_tasks st sid2 fstat ∧
    get_task_by_id (create_task st sid1 d newId now).1 sid2 tid'
        = get_task_by_id st sid2 tid' ∧
    search_tasks (create_task st sid1 d newId now).1 sid2 q
        = search_tasks st sid2 q ∧
    get_statistics (create_task st sid1 d newId now).1 sid2
        = get_statistics st sid2 ∧
    find_all (update_task st sid1 tid u now).1 sid2 = find_all st sid2 ∧
    find_all (delete_task st sid1 tid).1 sid2 = find_all st sid2 ∧
    find_all (clear_tasks st sid1) sid2 = find_all st sid2 := by
  have hc : find_all (create_task st sid1 d newId now).1 sid2
      = find_all st sid2 := by
    simp [create_task, repo_create, find_all_setKey_ne _ _ _ _ h]
  have hu : find_all (update_task st sid1 tid u now).1 sid2
      = find_all st sid2 := by
    unfold update_task repo_update
    by_cases he : u.isEmptyUpdate
    · simp [he]
    · simp only [he, Bool.false_eq_true, if_false]
      cases hfind : find_by_id st sid1 tid with
      | none => simp
      | some t => simp [find_all_setKey_ne _ _ _ _ h]
  have hd : find_all (delete_task st sid1 tid).1 sid2 = find_all st sid2 := by
    unfold delete_task repo_delete
    cases hfind : find_by_id st sid1 tid with
    | none => simp
    | some t => simp [find_all_setKey_ne _ _ _ _ h]
  have hcl : find_all (clear_tasks st sid1) sid2 = find_all st sid2 := by
    unfold clear_tasks
    cases hl : lookupKey st sid1 with
    | none => rfl
    | some ts => simp [find_all_setKey_ne _ _ _ _ h]
  exact ⟨by simp [get_all_tasks, hc], by simp [get_task_by_id, find_by_id, hc],
    by simp [search_tasks, hc], by simp [get_statistics, hc], hu, hd, hcl⟩

/-- C1 witness at concrete sessions "a" and "b". -/
theorem C1_session_isolation_witness :
    (['a'] : Str) ≠ ['b'] ∧
    get_all_tasks (create_task [] ['a'] { title := ['a', 'b', 'c'] } ['i'] 0).1
        ['b'] none
      = get_all_tasks ([] : Storage) ['b'] none :=
  ⟨by decide,
    (C1_session_isolation [] ['a'] ['b'] (by decide) { title := ['a', 'b', 'c'] }
      ['i'] 0 {} ['t'] ['t'] none ['q']).1⟩

theorem firstTask_updateFirst (tid : Str) (u : TaskUpdate) (now : Nat) :
    ∀ (ts : List Task) (t : Task), firstTask tid ts = some t →
      firstTask tid (updateFirst tid u now ts) = some (applyChanges t u now) := by
  intro ts
  induction ts with
  | nil => intro t h; simp [firstTask] at h
  | cons x xs ih =>
      intro t h
      by_cases hx : x.id = tid
      · have hxt : x = t := by simpa [firstTask, hx] using h
        subst hxt
        simp [updateFirst, firstTask, hx, applyChanges]
      · have h' : firstTask tid xs = some t := by simpa [firstTask, hx] using h
        simp [updateFirst, firstTask, hx, ih t h']

theorem firstTask_append_right (l : List Task) (t : Task) (tid : Str)
    (h : ∀ x ∈ l, x.id ≠ tid) :
    firstTask tid (l ++ [t]) = if t.id = tid then some t else none := by
  induction l with
  | nil => simp [firstTask]
  | cons x xs ih =>
      have hx : x.id ≠ tid := h x (List.mem_cons_self x xs)
      simp [firstTask, hx, ih (fun y hy => h y (List.mem_cons_of_mem x hy))]

/-- C4: partial-update frame.  When the task exists and the change set is
non-empty, `update_task` succeeds with the stored record rewritten in
place: `id` and `created_at` are unchanged (the change-set type has no such
fields, so they can never appear in one), every field absent from the
change set keeps its previous value, `updated_at` is rewritten to the
current time — under a monotone clock a value ≥ the previous one — and the
task found in the store afterwards is exactly the returned one. -/
theorem C4_update_frame (st : Storage) (sid tid : Str)
    (u : TaskUpdate) (now : Nat) (t : Task)
    (hfind : find_by_id st sid tid = some t)
    (hne : u.isEmptyUpdate = false) :
    (update_task st sid tid u now).2 = .ok (applyChanges t u now) ∧
    find_by_id (update_task st sid tid u now).1 sid tid
      = some (applyChanges t u now) ∧
    (applyChanges t u now).id = t.id ∧
    (applyChanges t u now).created_at = t.created_at ∧
    (applyChanges t u now).updated_at = now ∧
    (t.updated_at ≤ now → t.updated_at ≤ (applyChanges t u now).updated_at) ∧
    (u.title = none → (applyChanges t u now).title = t.title) ∧
    (u.description = none →
      (applyChanges t u now).description = t.description) ∧
    (u.status = none → (applyChanges t u now).status = t.status) ∧
    (u.priority = none → (applyChanges t u now).priority = t.priority) ∧
    (u.tags = none → (applyChanges t u now).tags = t.tags) ∧
    (u.due_date = none → (applyChanges t u now).due_date = t.due_date) := by
  refine ⟨?_, ?_, rfl, rfl, rfl, fun h => h, ?_, ?_, ?_, ?_, ?_, ?_⟩
  · simp [update_task, hne, repo_update, hfind]
  · have hst : (update_task st sid tid u now).1
        = setKey st sid (updateFirst tid u now (find_all st sid)) := by
      simp [update_task, hne, repo_update, hfind]
    rw [hst]
    unfold find_by_id
    rw [find_all_setKey_self]
    exact firstTask_updateFirst tid u now (find_all st sid) t hfind
  all_goals intro h; simp [applyChanges, h]

/-- C4 witness: a concrete priority-only update against the sample store. -/
theorem C4_update_frame_witness :
    find_by_id sampleStore ['s'] ['i', 'd'] = some sampleTask ∧
    TaskUpdate.isEmptyUpdate { priority := some 1 } = false ∧
    (update_task sampleStore ['s'] ['i', 'd'] { priority := some 1 } 5).2
      = .ok (applyChanges sampleTask { priority := some 1 } 5) ∧
    find_by_id (update_task sampleStore ['s'] ['i', 'd']
        { priority := some 1 } 5).1 ['s'] ['i', 'd']
      = some (applyChanges sampleTask { priority := some 1 } 5) :=
  ⟨by decide, by decide,
    (C4_update_frame sampleStore ['s'] ['i', 'd'] { priority := some 1 }
      5 sampleTask (by decide) (by decide)).1,
    (C4_update_frame sampleStore ['s'] ['i', 'd'] { priority := some 1 }
      5 sampleTask (by decide) (by decide)).2.1⟩

/-- C5: an empty change set is rejected with BadRequest before any
repository call, the store — hence the stored task and its `updated_at` —
being returned exactly as it was; a non-empty change set for an id absent
from the session's partition is rejected with NotFound, again with the
store unchanged. -/
theorem C5_update_rejections (st : Storage) (sid tid : Str) (now : Nat)
    (u₁ u₂ : TaskUpdate) (h1 : u₁.isEmptyUpdate = true)
    (h2 : u₂.isEmptyUpdate = false)
    (h3 : find_by_id st sid tid = none) :
    update_task st sid tid u₁ now = (st, .error .badRequest) ∧
    update_task st sid tid u₂ now = (st, .error .notFound) := by
  constructor
  · simp [update_task, h1]
  · simp [update_task, h2, repo_update, h3]

/-- C5 witness: the empty change set and an unknown id against the sample
store. -/
theorem C5_update_rejections_witness :
    TaskUpdate.isEmptyUpdate {} = true ∧
    TaskUpdate.isEmptyUpdate { priority := some 1 } = false ∧
    find_by_id sampleStore ['s'] ['z'] = none ∧
    update_task sampleStore ['s'] ['z'] {} 5
      = (sampleStore, .error .badRequest) ∧
    update_task sampleStore ['s'] ['z'] { priority := some 1 } 5
      = (sampleStore, .error .notFound) :=
  ⟨by decide, by decide, by decide,
    (C5_update_rejections sampleStore ['s'] ['z'] 5 {} { priority := some 1 }
      (by decide) (by decide) (by decide)).1,
    (C5_update_rejections sampleStore ['s'] ['z'] 5 {} { priority := some 1 }
      (by decide) (by decide) (by decide)).2⟩

/-- C8: create/get round trip.  When the generated id collides with no id
already in the session's partition, `get_task_by_id` performed on the store
returned by `create_task`, with the created task's id, returns exactly the
created task. -/
theorem C8_create_get_roundtrip (st : Storage) (sid : Str) (d : TaskCreate)
    (newId : Str) (now : Nat)
    (hfresh : ∀ t ∈ find_all st sid, t.id ≠ newId) :
    get_task_by_id (create_task st sid d newId now).1 sid
        (create_task st sid d newId now).2.id
      = .ok (create_task st sid d newId now).2 := by
  have h1 : find_all (create_task st sid d newId now).1 sid
      = find_all st sid ++ [(create_task st sid d newId now).2] := by
    simp [create_task, repo_create, find_all_setKey_self]
  have hid : (create_task st sid d newId now).2.id = newId := rfl
  unfold get_task_by_id find_by_id
  rw [hid, h1, firstTask_append_right _ _ _ hfresh, hid]
  simp

/-- C8 witness: a fresh id against the sample store. -/
theorem C8_create_get_roundtrip_witness :
    (∀ t ∈ find_all sampleStore ['s'], t.id ≠ ['n']) ∧
    get_task_by_id
        (create_task sampleStore ['s'] { title := ['F', 'i', 'x'] } ['n'] 3).1
        ['s']
        (create_task sampleStore ['s'] { title := ['F', 'i', 'x'] } ['n'] 3).2.id
      = .ok (create_task sampleStore ['s'] { title := ['F', 'i', 'x'] } ['n'] 3).2 :=
  ⟨by decide,
    C8_create_get_roundtrip sampleStore ['s'] { title := ['F', 'i', 'x'] }
      ['n'] 3 (by decide)⟩

theorem sum_status_counts (ts : List Task)
    (henum : ∀ t ∈ ts,
      t.status = TaskStatus.PENDING.value ∨
      t.status = TaskStatus.IN_PROGRESS.value ∨
      t.status = TaskStatus.COMPLETED.value ∨
      t.status = TaskStatus.CANCELLED.value) :
    ts.countP (fun t => t.status = TaskStatus.PENDING.value)
      + ts.countP (fun t => t.status = TaskStatus.IN_PROGRESS.value)
      + ts.countP (fun t => t.status = TaskStatus.COMPLETED.value)
      + ts.countP (fun t => t.status = TaskStatus.CANCELLED.value)
      = ts.length := by
  have d12 : TaskStatus.PENDING.value ≠ TaskStatus.IN_PROGRESS.value := by decide
  have d13 : TaskStatus.PENDING.value ≠ TaskStatus.COMPLETED.value := by decide
  have d14 : TaskStatus.PENDING.value ≠ TaskStatus.CANCELLED.value := by decide
  have d23 : TaskStatus.IN_PROGRESS.value ≠ TaskStatus.COMPLETED.value := by decide
  have d24 : TaskStatus.IN_PROGRESS.value ≠ TaskStatus.CANCELLED.value := by decide
  have d34 : TaskStatus.COMPLETED.value ≠ TaskStatus.CANCELLED.value := by decide
  induction ts with
  | nil => simp
  | cons x xs ih =>
      have hxs := fun t ht => henum t (List.mem_cons_of_mem x ht)
      have hs := ih hxs
      rcases henum x (List.mem_cons_self x xs) with h | h | h | h
      · simp only [List.countP_cons, decide_eq_true_eq, List.length_cons, h,
          d12, d13, d14]
        simp
        omega
      · simp only [List.countP_cons, decide_eq_true_eq, List.length_cons, h,
          Ne.symm d12, d23, d24]
        simp
        omega
      · simp only [List.countP_cons, decide_eq_true_eq, List.length_cons, h,
          Ne.symm d13, Ne.symm d23, d34]
        simp
        omega
      · simp only [List.countP_cons, decide_eq_true_eq, List.length_cons, h,
          Ne.symm d14, Ne.symm d24, Ne.symm d34]
        simp
        omega

/-- C6: statistics correctness.  `get_statistics` yields the five-field
record whose `total` is the partition length and whose four buckets count
exact status matches (stated as filter lengths over the partition); when
every stored status is one of the four enumeration values — as every value
the service ever stores is — the buckets sum to `total`.  On an empty
partition all fields are zero, as the witness shows concretely. -/
theorem C6_statistics (st : Storage) (sid : Str)
    (henum : ∀ t ∈ find_all st sid,
      t.status = TaskStatus.PENDING.value ∨
      t.status = TaskStatus.IN_PROGRESS.value ∨
      t.status = TaskStatus.COMPLETED.value ∨
      t.status = TaskStatus.CANCELLED.value) :
    (get_statistics st sid).total = (find_all st sid).length ∧
    (get_statistics st sid).pending
      = ((find_all st sid).filter
          (fun t => t.status = TaskStatus.PENDING.value)).length ∧
    (get_statistics st sid).in_progress
      = ((find_all st sid).filter
          (fun t => t.status = TaskStatus.IN_PROGRESS.value)).length ∧
    (get_statistics st sid).completed
      = ((find_all st sid).filter
          (fun t => t.status = TaskStatus.COMPLETED.value)).length ∧
    (get_statistics st sid).cancelled
      = ((find_all st sid).filter
          (fun t => t.status = TaskStatus.CANCELLED.value)).length ∧
    (get_statistics st sid).pending + (get_statistics st sid).in_progress
        + (get_statistics st sid).completed + (get_statistics st sid).cancelled
      = (get_statistics st sid).total := by
  refine ⟨rfl, ?_, ?_, ?_, ?_, sum_status_counts (find_all st sid) henum⟩
  all_goals
    simp [get_statistics, statsOf, List.countP_eq_length_filter]

/-- C6 witness: the sample store (one PENDING task) and, for the zero-fill
clause, the empty store. -/
theorem C6_statistics_witness :
    (∀ t ∈ find_all sampleStore ['s'],
      t.status = TaskStatus.PENDING.value ∨
      t.status = TaskStatus.IN_PROGRESS.value ∨
      t.status = TaskStatus.COMPLETED.value ∨
      t.status = TaskStatus.CANCELLED.value) ∧
    (get_statistics sampleStore ['s']).pending
        + (get_statistics sampleStore ['s']).in_progress
        + (get_statistics sampleStore ['s']).completed
        + (get_statistics sampleStore ['s']).cancelled
      = (get_statistics sampleStore ['s']).total ∧
    get_statistics ([] : Storage) ['s'] = ⟨0, 0, 0, 0, 0⟩ :=
  ⟨by decide, (C6_statistics sampleStore ['s'] (by decide)).2.2.2.2.2, by decide⟩

theorem beginsWith_iff (q : Str) : ∀ s : Str,
    beginsWith q s = true ↔ ∃ b, s = q ++ b := by
  induction q with
  | nil =>
      intro s
      simp [beginsWith]
  | cons c q ih =>
      intro s
      cases s with
      | nil => simp [beginsWith]
      | cons d s' =>
          constructor
          · intro h
            have h1 : c = d ∧ beginsWith q s' = true := by
              simpa [beginsWith] using h
            obtain ⟨b, hb⟩ := (ih s').mp h1.2
            exact ⟨b, by simp [h1.1, hb]⟩
          · rintro ⟨b, hb⟩
            have hcd : d = c ∧ s' = q ++ b := by simpa using hb
            simp [beginsWith, hcd.1, (ih s').mpr ⟨b, hcd.2⟩]

theorem strContains_iff (q : Str) : ∀ s : Str,
    strContains q s = true ↔ OccursIn q s := by
  intro s
  induction s with
  | nil =>
      constructor
      · intro h
        have hq : q = [] := by simpa [strContains, List.isEmpty_iff] using h
        exact ⟨[], [], by simp [hq]⟩
      · rintro ⟨a, b, hab⟩
        have h0 : a = [] ∧ q = [] ∧ b = [] := by
          simpa using hab.symm
        simp [strContains, List.isEmpty_iff, h0.2.1]
  | cons d s' ih =>
      constructor
      · intro h
        have hor : beginsWith q (d :: s') = true ∨ strContains q s' = true := by
          simpa [strContains, Bool.or_eq_true] using h
        rcases hor with hb | hc
        · obtain ⟨b, hb'⟩ := (beginsWith_iff q (d :: s')).mp hb
          exact ⟨[], b, by simp [hb']⟩
        · obtain ⟨a, b, hab⟩ := ih.mp hc
          exact ⟨d :: a, b, by simp [hab]⟩
      · rintro ⟨a, b, hab⟩
        cases a with
        | nil =>
            have hbw : beginsWith q (d :: s') = true :=
              (beginsWith_iff q (d :: s')).mpr ⟨b, by simpa using hab⟩
            simp [strContains, hbw]
        | cons a0 a' =>
            have h0 : d = a0 ∧ s' = a' ++ q ++ b := by simpa using hab
            have hrec : strContains q s' = true := ih.mpr ⟨a', b, h0.2⟩
            simp [strContains, hrec]

theorem matchesQuery_iff (q : Str) (t : Task) (hq : 2 ≤ q.length) :
    matchesQuery q t = true ↔ SpecSearchMatch q t := by
  have hqlen : (pyLower q).length = q.length := by simp [pyLower]
  have hnotnil : ¬ OccursIn (pyLower q) [] := by
    rintro ⟨a, b, hab⟩
    have h0 : a = [] ∧ pyLower q = [] ∧ b = [] := by simpa using hab.symm
    have hz : q.length = 0 := by
      simpa [pyLower] using congrArg List.length h0.2.1
    omega
  unfold matchesQuery SpecSearchMatch
  cases hd : t.description with
  | none => simp [strContains_iff]
  | some d =>
      by_cases hde : d.isEmpty
      · have hdnil : d = [] := by simpa [List.isEmpty_iff] using hde
        subst hdnil
        simp [strContains_iff, pyLower]
        intro h
        exact absurd (by simpa [pyLower] using h) hnotnil
      · simp [hde, strContains_iff]

/-- C7: search semantics.  For a query of at least 2 characters the search
endpoint succeeds and returns exactly the tasks of the session's partition
matched case-insensitively on title, or on description when one is present
(a task with no description never matches on description); a query shorter
than 2 characters is rejected with BadRequest before any search runs. -/
theorem C7_search_semantics (st : Storage) (sid : Str) (q qbad : Str)
    (hq : 2 ≤ q.length) (hbad : qbad.length < 2) :
    search_endpoint st sid q = .ok (search_tasks st sid q) ∧
    (∀ t, t ∈ search_tasks st sid q
      ↔ t ∈ find_all st sid ∧ SpecSearchMatch q t) ∧
    search_endpoint st sid qbad = .error .badRequest := by
  refine ⟨?_, ?_, ?_⟩
  · simp [search_endpoint, Nat.not_lt.mpr hq]
  · intro t
    rw [search_tasks, searchFilter, List.mem_filter, matchesQuery_iff q t hq]
  · simp [search_endpoint, hbad]

/-- C7 witness: the two-character query "bu" finds the sample task
"Fix Bug", and the one-character query "b" is rejected. -/
theorem C7_search_semantics_witness :
    2 ≤ (['b', 'u'] : Str).length ∧
    (['b'] : Str).length < 2 ∧
    (sampleTask ∈ search_tasks sampleStore ['s'] ['b', 'u']
      ↔ sampleTask ∈ find_all sampleStore ['s']
          ∧ SpecSearchMatch ['b', 'u'] sampleTask) ∧
    search_endpoint sampleStore ['s'] ['b'] = .error .badRequest :=
  ⟨by decide, by decide,
    (C7_search_semantics sampleStore ['s'] ['b', 'u'] ['b'] (by decide)
      (by decide)).2.1 sampleTask,
    (C7_search_semantics sampleStore ['s'] ['b', 'u'] ['b'] (by decide)
      (by decide)).2.2⟩

theorem dropWhile_head_not (p : Char → Bool) : ∀ (l : Str) (c : Char),
    (l.dropWhile p).head? = some c → p c = false := by
  intro l
  induction l with
  | nil => intro c h; simp [List.dropWhile] at h
  | cons x xs ih =>
      intro c h
      rw [List.dropWhile_cons] at h
      cases hpx : p x with
      | true =>
          rw [hpx] at h
          exact ih c (by simpa using h)
      | false =>
          rw [hpx] at h
          have hxc : x = c := by simpa using h
          exact hxc ▸ hpx

theorem dropWhile_self (p : Char → Bool) (l : Str)
    (h : ∀ c, l.head? = some c → p c = false) : l.dropWhile p = l := by
  cases l with
  | nil => rfl
  | cons x xs => simp [List.dropWhile_cons, h x rfl]

theorem dropWhile_idem (p : Char → Bool) (l : Str) :
    (l.dropWhile p).dropWhile p = l.dropWhile p :=
  dropWhile_self p _ (fun c hc => dropWhile_head_not p l c hc)

theorem dropWhile_length_le (p : Char → Bool) : ∀ l : Str,
    (l.dropWhile p).length ≤ l.length := by
  intro l
  induction l with
  | nil => simp
  | cons x xs ih =>
      rw [List.dropWhile_cons]
      cases hpx : p x with
      | true =>
          simp only [if_true]
          exact Nat.le_trans ih (by simp)
      | false => simp

theorem dropWhile_getLast? (p : Char → Bool) : ∀ l : Str,
    l.dropWhile p ≠ [] → (l.dropWhile p).getLast? = l.getLast? := by
  intro l
  induction l with
  | nil => intro h; simp [List.dropWhile] at h
  | cons x xs ih =>
      intro h
      cases hpx : p x with
      | true =>
          have hcons : (x :: xs).dropWhile p = xs.dropWhile p := by
            simp [List.dropWhile_cons, hpx]
          rw [hcons] at h ⊢
          rw [ih h]
          have hxs : xs ≠ [] := by
            intro h0
            rw [h0] at h
            simp [List.dropWhile] at h
          cases xs with
          | nil => exact absurd rfl hxs
          | cons y ys => rw [List.getLast?_cons_cons]
      | false =>
          have hcons : (x :: xs).dropWhile p = x :: xs := by
            simp [List.dropWhile_cons, hpx]
          rw [hcons]

theorem pyStrip_idem (s : Str) : pyStrip (pyStrip s) = pyStrip s := by
  simp only [pyStrip, stripLeft]
  set w := Char.isWhitespace with hw
  set A := List.dropWhile w s with hA
  set B := List.dropWhile w A.reverse with hB
  by_cases hBnil : B = []
  · rw [hBnil]
    simp [List.dropWhile]
  · have h1 : List.dropWhile w B.reverse = B.reverse := by
      apply dropWhile_self
      intro c hc
      rw [List.head?_reverse] at hc
      have hgl : B.getLast? = A.reverse.getLast? := by
        rw [hB]
        exact dropWhile_getLast? w A.reverse (by rw [← hB]; exact hBnil)
      rw [hgl, List.getLast?_reverse] at hc
      rw [hA] at hc
      exact dropWhile_head_not w s c hc
    rw [h1, List.reverse_reverse, hB, dropWhile_idem, ← hB]

theorem pyStrip_length_le (s : Str) : (pyStrip s).length ≤ s.length := by
  rw [pyStrip, List.length_reverse, stripLeft, stripLeft]
  exact Nat.le_trans (dropWhile_length_le _ _)
    (by rw [List.length_reverse]; exact dropWhile_length_le _ _)

/-- C3 counterexample: the raw title `"  a "` has 4 characters, so it
passes the boundary's `min_length=3` check, which runs on the raw value
before the validator strips; the stored title is the stripped `"a"`, whose
trimmed length is 1, not between 3 and 200.  The claim as stated is
therefore false for the task this input creates. -/
theorem C3_title_counterexample :
    validateTitle [' ', ' ', 'a', ' '] = some ['a'] ∧
    (create_task [] ['s'] { title := ['a'] } ['i'] 0).2.title = ['a'] ∧
    (pyStrip ['a']).length < 3 := by decide

/-- C3 amended: a title accepted by the boundary is stored stripped of
surrounding whitespace (stripping it again changes nothing) and non-empty,
its length is at most the raw length and hence at most 200, but only the
raw — pre-strip — length is guaranteed to be at least 3; `create_task`
stores the validated title verbatim. -/
theorem C3_title_invariant_amended (v t : Str)
    (h : validateTitle v = some t) :
    pyStrip t = t ∧ t ≠ [] ∧ 1 ≤ t.length ∧ t.length ≤ v.length ∧
    t.length ≤ 200 ∧ 3 ≤ v.length ∧ v.length ≤ 200 ∧
    ∀ (st : Storage) (sid : Str) (d : TaskCreate) (newId : Str) (now : Nat),
      (create_task st sid { d with title := t } newId now).2.title = t := by
  rw [validateTitle] at h
  by_cases h1 : 3 ≤ v.length ∧ v.length ≤ 200
  · rw [if_pos h1] at h
    by_cases h2 : pyStrip v = []
    · rw [if_pos h2] at h
      exact absurd h (by simp)
    · rw [if_neg h2] at h
      have ht : t = pyStrip v := by simpa using h.symm
      subst ht
      refine ⟨pyStrip_idem v, h2, ?_, pyStrip_length_le v, ?_, h1.1, h1.2,
        fun st sid d newId now => rfl⟩
      · have := List.length_pos.mpr h2
        omega
      · exact Nat.le_trans (pyStrip_length_le v) h1.2
  · rw [if_neg h1] at h
    exact absurd h (by simp)

/-- C3 amended witness: the raw title `" Fix "` is accepted and stored as
the stripped, non-blank `"Fix"`. -/
theorem C3_title_invariant_amended_witness :
    validateTitle [' ', 'F', 'i', 'x', ' '] = some ['F', 'i', 'x'] ∧
    pyStrip ['F', 'i', 'x'] = ['F', 'i', 'x'] ∧
    (['F', 'i', 'x'] : Str) ≠ [] :=
  ⟨by decide,
    (C3_title_invariant_amended [' ', 'F', 'i', 'x', ' '] ['F', 'i', 'x']
      (by decide)).1,
    (C3_title_invariant_amended [' ', 'F', 'i', 'x', ' '] ['F', 'i', 'x']
      (by decide)).2.1⟩

/-- C10 counterexample: the empty filter string equals no stored task's
status, yet `get_all_tasks` with filter `""` returns the whole partition —
`if status:` treats the falsy empty string as "no filter" — so the claim's
"returns the empty sequence for every non-matching filter string" is false
at filter `""` on a non-empty partition. -/
theorem C10_filter_counterexample :
    sampleTask.status ≠ ([] : Str) ∧
    get_all_tasks sampleStore ['s'] (some []) = [sampleTask] ∧
    get_all_tasks sampleStore ['s'] (some []) ≠ [] := by decide

/-- C10 amended: a NON-EMPTY status filter string that equals no stored
task's status yields the empty sequence — with no validation against the
enumeration and no error of any kind, as `get_all_tasks` is total — while
the empty filter string is treated as "no filter" and returns the whole
partition. -/
theorem C10_unrecognized_filter (st : Storage) (sid : Str) (s : Str)
    (hne : s ≠ []) (hnomatch : ∀ t ∈ find_all st sid, t.status ≠ s) :
    get_all_tasks st sid (some s) = [] ∧
    get_all_tasks st sid (some []) = find_all st sid := by
  constructor
  · rw [get_all_tasks, filterByStatus, if_neg hne]
    exact List.filter_eq_nil_iff.mpr
      (fun t ht => by simpa using hnomatch t ht)
  · simp [get_all_tasks, filterByStatus]

/-- C10 amended witness: the lower-cased filter `"pending"` matches no
stored status value and yields the empty sequence on the sample store. -/
theorem C10_unrecognized_filter_witness :
    (['p', 'e', 'n', 'd', 'i', 'n', 'g'] : Str) ≠ [] ∧
    (∀ t ∈ find_all sampleStore ['s'],
      t.status ≠ ['p', 'e', 'n', 'd', 'i', 'n', 'g']) ∧
    get_all_tasks sampleStore ['s']
        (some ['p', 'e', 'n', 'd', 'i', 'n', 'g']) = [] :=
  ⟨by decide, by decide,
    (C10_unrecognized_filter sampleStore ['s']
      ['p', 'e', 'n', 'd', 'i', 'n', 'g'] (by decide) (by decide)).1⟩

end TaskApi
